import Mathlib

/-!
Verification development for the pocket-money tracker repository.

The repository contains three variants of the same ledger application:
`money.py` (full-featured CLI with a starting balance, categories and a
monthly summary), `simple.py` (minimal CLI without a starting balance) and
`pp.py` (browser form UI over a tabular transaction store).  This file
gives a shallow embedding of the ledger data model and of the operations
the specification talks about, and proves the spec's testable properties
against it.  Monetary amounts (Python floats holding decimal values) are
modelled as rationals; date, type, category and note fields are strings,
as in the source.
-/

/-! ### String helpers

Python compares strings lexicographically by code point, checks prefixes
with `str.startswith`, and parses digit strings with `int(...)`.  The
built-in Lean string functions for these are not kernel-reducible, so we
define structurally recursive versions over the underlying character
lists; they are used both in the embedded code and in concrete
evaluations.
-/

/-- Lexicographic (code-point) comparison of character lists: `true` iff
the first list is ≤ the second, exactly as Python compares strings. -/
def strLeAux : List Char → List Char → Bool
  | [], _ => true
  | _ :: _, [] => false
  | a :: as, b :: bs =>
    if a.toNat < b.toNat then true
    else if b.toNat < a.toNat then false
    else strLeAux as bs

/-- Lexicographic (code-point) order on strings, as used by Python's
string comparison in `sorted(..., key=...)`. -/
def strLe (a b : String) : Bool := strLeAux a.data b.data

/-- Helper for `strStartsWith`: does the first list start with the second? -/
def strStartsWithAux : List Char → List Char → Bool
  | _, [] => true
  | [], _ :: _ => false
  | a :: as, b :: bs => a = b && strStartsWithAux as bs

/-- Python's `s.startswith(p)`. -/
def strStartsWith (s p : String) : Bool := strStartsWithAux s.data p.data

/-- Numeric value of a digit string (the result of Python's `int` on a
string of ASCII digits); used only on validated month strings. -/
def strToNat (s : String) : ℕ := s.data.foldl (fun n c => 10 * n + (c.toNat - 48)) 0

/-- The lexicographic comparison is total: one of the two directions
always holds. -/
theorem strLeAux_total : ∀ as bs : List Char, strLeAux as bs = true ∨ strLeAux bs as = true
  | [], _ => Or.inl rfl
  | _ :: _, [] => Or.inr rfl
  | a :: as, b :: bs => by
    rcases Nat.lt_trichotomy a.toNat b.toNat with h | h | h
    · left; simp [strLeAux, h]
    · rcases strLeAux_total as bs with ih | ih
      · left; simp [strLeAux, h, ih]
      · right; simp [strLeAux, h, ih]
    · right; simp [strLeAux, h]

/-- The lexicographic comparison is transitive. -/
theorem strLeAux_trans : ∀ as bs cs : List Char,
    strLeAux as bs = true → strLeAux bs cs = true → strLeAux as cs = true
  | [], _, _ => fun _ _ => rfl
  | _ :: _, [], _ => by simp [strLeAux]
  | _ :: _, _ :: _, [] => by simp [strLeAux]
  | a :: as, b :: bs, c :: cs => by
    simp only [strLeAux]
    intro h1 h2
    rcases Nat.lt_trichotomy a.toNat b.toNat with hab | hab | hab
    · rcases Nat.lt_trichotomy b.toNat c.toNat with hbc | hbc | hbc
      · simp [show a.toNat < c.toNat by omega]
      · simp [show a.toNat < c.toNat by omega]
      · simp [hbc, show ¬ b.toNat < c.toNat by omega] at h2
    · rcases Nat.lt_trichotomy b.toNat c.toNat with hbc | hbc | hbc
      · simp [show a.toNat < c.toNat by omega]
      · simp [show ¬ a.toNat < b.toNat by omega,
              show ¬ b.toNat < a.toNat by omega] at h1
        simp [show ¬ b.toNat < c.toNat by omega,
              show ¬ c.toNat < b.toNat by omega] at h2
        simp [show ¬ a.toNat < c.toNat by omega,
              show ¬ c.toNat < a.toNat by omega]
        exact strLeAux_trans as bs cs h1 h2
      · simp [hbc, show ¬ b.toNat < c.toNat by omega] at h2
    · simp [hab, show ¬ a.toNat < b.toNat by omega] at h1

/-- Totality of `strLe`. -/
theorem strLe_total (a b : String) : strLe a b = true ∨ strLe b a = true :=
  strLeAux_total a.data b.data

/-- Transitivity of `strLe`. -/
theorem strLe_trans (a b c : String) (h1 : strLe a b = true) (h2 : strLe b c = true) :
    strLe a c = true :=
  strLeAux_trans a.data b.data c.data h1 h2

namespace Money

/-- A transaction record of `money.py`: a dict with keys `date`, `type`,
`amount`, `category`, `note`.  The `amount` key is optional because
`calculate_balance` reads it with `t.get("amount", 0.0)`; the other keys
are read with string defaults, so they are modelled as plain strings. -/
structure Transaction where
  date : String
  ttype : String
  amount : Option ℚ
  category : String
  note : String
deriving DecidableEq

/-- The in-memory ledger of `money.py`: the dict with keys
`starting_balance` and `transactions` that `load_data` returns and every
menu action mutates. -/
structure LedgerData where
  starting_balance : ℚ
  transactions : List Transaction
deriving DecidableEq

/-- Content of the persisted store `pocket_data.json` as `load_data` can
observe it: the file may be absent, unreadable or syntactically invalid
JSON (`OSError` / `json.JSONDecodeError`, both caught), a valid JSON
array at top level (e.g. the file text `[]` — `json.load` succeeds and
returns a list), or a JSON object, possibly missing either key. -/
inductive StoreContent where
  | absent
  | unreadable
  | jsonArr
  | jsonObj (starting_balance : Option ℚ) (transactions : Option (List Transaction))
deriving DecidableEq

/-- An uncaught Python exception escaping to the caller. -/
inductive PyError where
  | typeError
deriving DecidableEq

/-- Embedding of `money.py` `load_data` (lines 25–47).  An absent file
yields the fresh ledger; `json.JSONDecodeError` and `OSError` are caught
and also yield the fresh ledger; a JSON object gets the two sanity-check
defaults applied.  A top-level JSON array is *not* caught: the check
`"starting_balance" not in data` succeeds on a list, and the assignment
`data["starting_balance"] = 0.0` then raises `TypeError`, which escapes
`load_data` (only `JSONDecodeError` and `OSError` are handled). -/
def load_data : StoreContent → Except PyError LedgerData
  | .absent => .ok ⟨0, []⟩
  | .unreadable => .ok ⟨0, []⟩
  | .jsonArr => .error .typeError
  | .jsonObj sb ts => .ok ⟨sb.getD 0, ts.getD []⟩

/-- Embedding of `money.py` `save_data` (lines 50–53): serializes the
whole in-memory dict (both keys present) to the store. -/
def save_data (d : LedgerData) : StoreContent :=
  .jsonObj (some d.starting_balance) (some d.transactions)

/-- Embedding of `money.py` `calculate_balance` (lines 58–67): fold over
the transactions starting from the starting balance, adding the amount of
`IN` entries, subtracting the amount of `OUT` entries, ignoring others;
a missing amount is read as `0.0`. -/
def calculate_balance (data : LedgerData) : ℚ :=
  data.transactions.foldl
    (fun balance t =>
      let amount := t.amount.getD 0
      if t.ttype = "IN" then balance + amount
      else if t.ttype = "OUT" then balance - amount
      else balance)
    data.starting_balance

/-- The combined program state relevant to an append: the in-memory dict
plus the persisted store. -/
structure AppState where
  data : LedgerData
  store : StoreContent
deriving DecidableEq

/-- Error reported to the user by an append operation. -/
inductive AppendError where
  | invalidAmount
deriving DecidableEq

/-- Embedding of `money.py` `add_income` (lines 116–136).  The
interactive inputs (amount, source, date, note) are parameters.  A
non-positive amount is rejected before anything is touched; otherwise a
transaction with type `IN` and category defaulting to `"Pocket Money"`
is appended and the whole state is saved. -/
def add_income (s : AppState) (amount : ℚ) (source date note : String) :
    AppState × Option AppendError :=
  if amount ≤ 0 then (s, some .invalidAmount)
  else
    let t : Transaction :=
      ⟨date, "IN", some amount, if source = "" then "Pocket Money" else source, note⟩
    let d : LedgerData := ⟨s.data.starting_balance, s.data.transactions ++ [t]⟩
    (⟨d, save_data d⟩, none)

/-- Embedding of `money.py` `add_expense` (lines 139–160): as
`add_income` but with type `OUT` and category defaulting to `"Other"`. -/
def add_expense (s : AppState) (amount : ℚ) (category date note : String) :
    AppState × Option AppendError :=
  if amount ≤ 0 then (s, some .invalidAmount)
  else
    let t : Transaction :=
      ⟨date, "OUT", some amount, if category = "" then "Other" else category, note⟩
    let d : LedgerData := ⟨s.data.starting_balance, s.data.transactions ++ [t]⟩
    (⟨d, save_data d⟩, none)

/-- An append request issued through the menu: income or expense with the
interactive inputs recorded. -/
inductive Op where
  | income (amount : ℚ) (source date note : String)
  | expense (amount : ℚ) (category date note : String)

/-- The amount carried by an append request. -/
def Op.amountOf : Op → ℚ
  | .income a _ _ _ => a
  | .expense a _ _ _ => a

/-- The transaction record an accepted append request creates (matching
the dict literals in `add_income` / `add_expense`). -/
def Op.tx : Op → Transaction
  | .income a src d n => ⟨d, "IN", some a, if src = "" then "Pocket Money" else src, n⟩
  | .expense a c d n => ⟨d, "OUT", some a, if c = "" then "Other" else c, n⟩

/-- Run one append request against the program state. -/
def applyOp (s : AppState) (op : Op) : AppState :=
  match op with
  | .income a src d n => (add_income s a src d n).1
  | .expense a c d n => (add_expense s a c d n).1

/-- Run a sequence of append requests in order. -/
def applyOps (s : AppState) (ops : List Op) : AppState := ops.foldl applyOp s

/-- Date order on transactions (Python `sorted` with the date string as
key compares lexicographically by code point). -/
def dateLe (a b : Transaction) : Prop := strLe a.date b.date = true

instance : DecidableRel dateLe :=
  fun a b => inferInstanceAs (Decidable (strLe a.date b.date = true))

instance : IsTotal Transaction dateLe := ⟨fun a b => strLe_total a.date b.date⟩

instance : IsTrans Transaction dateLe :=
  ⟨fun a b c h1 h2 => strLe_trans a.date b.date c.date h1 h2⟩

/-- Embedding of the sort in `money.py` `list_transactions` (lines
173–193): `sorted(transactions, key=lambda x: x.get("date", ""))`, a
stable ascending sort by the date string. -/
def list_transactions (data : LedgerData) : List Transaction :=
  data.transactions.insertionSort dateLe

/-- Valid month strings: exactly those accepted by
`datetime.strptime(f"(year)-(month)-01", "%Y-%m-%d")` in the month
position, where `%m` matches one or two digits denoting 1–12 (the whole
input must be consumed, so no other month string can sneak through). -/
def validMonths : List String :=
  ["1", "2", "3", "4", "5", "6", "7", "8", "9",
   "01", "02", "03", "04", "05", "06", "07", "08", "09", "10", "11", "12"]

/-- Valid year strings: `%Y` matches exactly four digits, and
`datetime` rejects year 0, so `"0000"` raises `ValueError` as well. -/
def validYear (y : String) : Bool :=
  y.length = 4 && y.data.all Char.isDigit && y ≠ "0000"

/-- Success of the validation in `money.py` `monthly_summary` (lines
208–211): `datetime.strptime(f"(year)-(month)-01", "%Y-%m-%d")` does not
raise. -/
def validYM (y m : String) : Bool := validYear y && validMonths.contains m

/-- Result of the monthly summary: the two totals, the net change and
the transaction count that are printed, together with the filtered
transaction list that is accumulated. -/
structure Summary where
  income_total : ℚ
  expense_total : ℚ
  net : ℚ
  count : ℕ
  counted : List Transaction
deriving DecidableEq

/-- One step of the accumulation loop in `monthly_summary`: skip
transactions whose date does not start with the month prefix; add `IN`
amounts to the income total, `OUT` amounts to the expense total, and
collect every matching transaction. -/
def monthStep (p : String) (acc : ℚ × ℚ × List Transaction) (t : Transaction) :
    ℚ × ℚ × List Transaction :=
  if strStartsWith t.date p then
    let amount := t.amount.getD 0
    if t.ttype = "IN" then (acc.1 + amount, acc.2.1, acc.2.2 ++ [t])
    else if t.ttype = "OUT" then (acc.1, acc.2.1 + amount, acc.2.2 ++ [t])
    else (acc.1, acc.2.1, acc.2.2 ++ [t])
  else acc

/-- Embedding of `money.py` `monthly_summary` (lines 196–250).  Empty
year/month inputs default to today's values (passed in as parameters);
the pair must then parse as a real calendar year-month or the operation
reports an error and does nothing.  Otherwise the month prefix is built
(zero-padding a one-digit month) and the totals are accumulated in one
pass.  The ledger is returned alongside to record that it is never
modified. -/
def monthly_summary (todayY todayM : String) (data : LedgerData) (year month : String) :
    LedgerData × Option Summary :=
  let y := if year = "" then todayY else year
  let m := if month = "" then todayM else month
  if validYM y m then
    let ymPref := if m.length = 2 then y ++ "-" ++ m else y ++ "-0" ++ m
    let r := data.transactions.foldl (monthStep ymPref) (0, 0, [])
    (data, some ⟨r.1, r.2.1, r.1 - r.2.1, r.2.2.length, r.2.2⟩)
  else (data, none)

/-! ### Specification-side definitions for `money.py`

These follow the spec's wording (balance-style sums, month restriction,
zero-padded prefix) and are compared with the embedded code above. -/

/-- Sum of the amounts of the `IN` transactions of a list. -/
def sumIN (ts : List Transaction) : ℚ :=
  ((ts.filter fun t => t.ttype = "IN").map fun t => t.amount.getD 0).sum

/-- Sum of the amounts of the `OUT` transactions of a list. -/
def sumOUT (ts : List Transaction) : ℚ :=
  ((ts.filter fun t => t.ttype = "OUT").map fun t => t.amount.getD 0).sum

/-- Signed contribution of one transaction to the balance: `IN` adds its
amount, `OUT` subtracts it, any other type contributes nothing, and a
missing amount counts as zero. -/
def contrib (t : Transaction) : ℚ :=
  if t.ttype = "IN" then t.amount.getD 0
  else if t.ttype = "OUT" then -(t.amount.getD 0)
  else 0

/-- The transactions of a list whose date string starts with a given
year-month prefix. -/
def monthTxs (p : String) (ts : List Transaction) : List Transaction :=
  ts.filter fun t => strStartsWith t.date p

/-- Income total of the month selected by a prefix, spec style. -/
def incomeOf (p : String) (ts : List Transaction) : ℚ := sumIN (monthTxs p ts)

/-- Expense total of the month selected by a prefix, spec style. -/
def expenseOf (p : String) (ts : List Transaction) : ℚ := sumOUT (monthTxs p ts)

/-- Zero-padded two-digit rendering of a month number. -/
def pad2 (n : ℕ) : String := if n < 10 then "0" ++ toString n else toString n

/-- The spec's month prefix `YYYY-MM` with a zero-padded month, built
from the numeric value of the month string. -/
def specPrefix (y m : String) : String := y ++ "-" ++ pad2 (strToNat m)

end Money

namespace Simple

/-- A transaction record of `simple.py`: a dict with keys `date`,
`type`, `amount`, `note`.  Every record this variant creates carries all
four keys, and its functions index them directly (`t["amount"]`), so the
fields are total here. -/
structure Transaction where
  date : String
  ttype : String
  amount : ℚ
  note : String
deriving DecidableEq

/-- Embedding of `simple.py` `calc_balance` (lines 46–55): fold over the
transactions from 0, adding the amount of `IN` entries and subtracting
the amount of every other entry (the source has a bare `else`, not a
check for `OUT`). -/
def calc_balance (ts : List Transaction) : ℚ :=
  ts.foldl
    (fun balance t =>
      if t.ttype = "IN" then balance + t.amount else balance - t.amount)
    0

/-- The program state of `simple.py` relevant to an append: the
in-memory transaction list and the content of
`pocket_money_data.json` (`none` when nothing has been written). -/
structure AppState where
  transactions : List Transaction
  store : Option (List Transaction)
deriving DecidableEq

/-- Error reported to the user by an append operation. -/
inductive AppendError where
  | invalidAmount
deriving DecidableEq

/-- Embedding of `simple.py` `add_income` (lines 68–84): a non-positive
amount is rejected before anything is touched; otherwise a transaction
with type `IN` and note defaulting to `"Income"` is appended and the
data is saved. -/
def add_income (s : AppState) (amount : ℚ) (note date : String) :
    AppState × Option AppendError :=
  if amount ≤ 0 then (s, some .invalidAmount)
  else
    let t : Transaction := ⟨date, "IN", amount, if note = "" then "Income" else note⟩
    let ts := s.transactions ++ [t]
    (⟨ts, some ts⟩, none)

/-- Embedding of `simple.py` `add_expense` (lines 89–106): as
`add_income` but with type `OUT` and note defaulting to `"Expense"`. -/
def add_expense (s : AppState) (amount : ℚ) (note date : String) :
    AppState × Option AppendError :=
  if amount ≤ 0 then (s, some .invalidAmount)
  else
    let t : Transaction := ⟨date, "OUT", amount, if note = "" then "Expense" else note⟩
    let ts := s.transactions ++ [t]
    (⟨ts, some ts⟩, none)

/-- An append request issued through the menu of `simple.py`. -/
inductive Op where
  | income (amount : ℚ) (note date : String)
  | expense (amount : ℚ) (note date : String)

/-- The amount carried by an append request. -/
def Op.amountOf : Op → ℚ
  | .income a _ _ => a
  | .expense a _ _ => a

/-- The transaction record an accepted append request creates. -/
def Op.tx : Op → Transaction
  | .income a n d => ⟨d, "IN", a, if n = "" then "Income" else n⟩
  | .expense a n d => ⟨d, "OUT", a, if n = "" then "Expense" else n⟩

/-- Run one append request against the program state. -/
def applyOp (s : AppState) (op : Op) : AppState :=
  match op with
  | .income a n d => (add_income s a n d).1
  | .expense a n d => (add_expense s a n d).1

/-- Run a sequence of append requests in order. -/
def applyOps (s : AppState) (ops : List Op) : AppState := ops.foldl applyOp s

/-- Sum of the amounts of the `IN` transactions of a list. -/
def sumIN (ts : List Transaction) : ℚ :=
  ((ts.filter fun t => t.ttype = "IN").map fun t => t.amount).sum

/-- Sum of the amounts of the `OUT` transactions of a list. -/
def sumOUT (ts : List Transaction) : ℚ :=
  ((ts.filter fun t => t.ttype = "OUT").map fun t => t.amount).sum

end Simple

namespace PP

/-- The tabular store of `pp.py`: a pandas DataFrame, modelled by its
column names and its rows of CSV cells. -/
structure DataFrame where
  columns : List String
  rows : List (List String)
deriving DecidableEq

/-- The required columns checked by the upload handler of `pp.py`. -/
def required_cols : List String := ["Date", "Type", "Amount", "Category", "Note"]

/-- Message shown in the sidebar after an upload attempt. -/
inductive UploadOutcome where
  | success
  | missingColumns
  | readError
deriving DecidableEq

/-- Embedding of the upload handler of `pp.py` (lines 52–63).  The
argument `r` is the result of `pd.read_csv`: `none` when it raised (the
surrounding `try` reports the error and leaves the state alone), `some
df` otherwise.  A parsed file replaces the transaction set only when its
columns include all required columns; otherwise an error is reported and
the prior set is retained. -/
def handle_upload (prior : DataFrame) (r : Option DataFrame) : DataFrame × UploadOutcome :=
  match r with
  | none => (prior, .readError)
  | some df =>
    if required_cols.all (fun c => df.columns.contains c) then (df, .success)
    else (prior, .missingColumns)

/-- A row of the transaction table of `pp.py` in its well-formed shape
(columns `Date`, `Type`, `Amount`, `Category`, `Note`). -/
structure Entry where
  date : String
  etype : String
  amount : ℚ
  category : String
  note : String
deriving DecidableEq

/-- Ascending date order on table rows (what the claim asserts the
display uses). -/
def dateLe (a b : Entry) : Prop := strLe a.date b.date = true

instance : DecidableRel dateLe :=
  fun a b => inferInstanceAs (Decidable (strLe a.date b.date = true))

/-- Descending date order on table rows. -/
def dateGe (a b : Entry) : Prop := strLe b.date a.date = true

instance : DecidableRel dateGe :=
  fun a b => inferInstanceAs (Decidable (strLe b.date a.date = true))

instance : IsTotal Entry dateGe := ⟨fun a b => strLe_total b.date a.date⟩

instance : IsTrans Entry dateGe :=
  ⟨fun a b c h1 h2 => strLe_trans c.date b.date a.date h2 h1⟩

/-- Embedding of the display sort of `pp.py` (lines 147–152):
`df_display.sort_values("Date", ascending=False)` orders the table by
date, newest first.  For the well-formed `YYYY-MM-DD` dates this table
holds, the datetime order pandas sorts by coincides with lexicographic
string order; pandas leaves the relative order of equal dates
unspecified, and the model fixes the stable one. -/
def df_display (l : List Entry) : List Entry := l.insertionSort dateGe

end PP

/-! ### Helper lemmas -/

/-- The balance fold of `money.py`, from an arbitrary start value, adds
the signed contribution of every transaction. -/
theorem money_balance_foldl : ∀ (ts : List Money.Transaction) (b : ℚ),
    ts.foldl
      (fun balance t =>
        let amount := t.amount.getD 0
        if t.ttype = "IN" then balance + amount
        else if t.ttype = "OUT" then balance - amount
        else balance)
      b = b + (ts.map Money.contrib).sum
  | [], b => by simp
  | t :: ts, b => by
    simp only [List.foldl_cons, List.map_cons, List.sum_cons]
    rw [money_balance_foldl ts]
    unfold Money.contrib
    by_cases h1 : t.ttype = "IN"
    · simp [h1]; ring
    · by_cases h2 : t.ttype = "OUT"
      · simp [h1, h2]; ring
      · simp [h1, h2]

/-- `calculate_balance` equals the starting balance plus the sum of the
signed contributions. -/
theorem money_calc_balance_eq (data : Money.LedgerData) :
    Money.calculate_balance data
      = data.starting_balance + (data.transactions.map Money.contrib).sum := by
  unfold Money.calculate_balance
  exact money_balance_foldl data.transactions data.starting_balance

/-- When every transaction is of type `IN` or `OUT`, the sum of signed
contributions is the income sum minus the expense sum. -/
theorem money_contrib_sum : ∀ ts : List Money.Transaction,
    (∀ t ∈ ts, t.ttype = "IN" ∨ t.ttype = "OUT") →
    (ts.map Money.contrib).sum = Money.sumIN ts - Money.sumOUT ts
  | [] => by simp [Money.sumIN, Money.sumOUT]
  | t :: ts => by
    intro h
    have ht := h t (List.mem_cons_self t ts)
    have hts := money_contrib_sum ts fun u hu => h u (List.mem_cons_of_mem t hu)
    have hIN : Money.sumIN (t :: ts)
        = (if t.ttype = "IN" then t.amount.getD 0 else 0) + Money.sumIN ts := by
      by_cases hi : t.ttype = "IN" <;> simp [Money.sumIN, List.filter_cons, hi]
    have hOUT : Money.sumOUT (t :: ts)
        = (if t.ttype = "OUT" then t.amount.getD 0 else 0) + Money.sumOUT ts := by
      by_cases ho : t.ttype = "OUT" <;> simp [Money.sumOUT, List.filter_cons, ho]
    rw [List.map_cons, List.sum_cons, hIN, hOUT, hts]
    rcases ht with ht | ht <;> simp [Money.contrib, ht] <;> ring

/-- Applying a sequence of valid append requests (`money.py`) appends
exactly the corresponding transaction records, in order, and leaves the
starting balance alone. -/
theorem money_applyOps_spec : ∀ (ops : List Money.Op) (s : Money.AppState),
    (∀ op ∈ ops, 0 < op.amountOf) →
    (Money.applyOps s ops).data.transactions
        = s.data.transactions ++ ops.map Money.Op.tx
      ∧ (Money.applyOps s ops).data.starting_balance = s.data.starting_balance
  | [], s => by simp [Money.applyOps]
  | op :: ops, s => by
    intro h
    have hop := h op (List.mem_cons_self op ops)
    have ih := money_applyOps_spec ops (Money.applyOp s op)
      fun u hu => h u (List.mem_cons_of_mem op hu)
    have hstep : (Money.applyOp s op).data.transactions
          = s.data.transactions ++ [Money.Op.tx op]
        ∧ (Money.applyOp s op).data.starting_balance = s.data.starting_balance := by
      cases op with
      | income a src d n =>
        simp only [Money.Op.amountOf] at hop
        simp [Money.applyOp, Money.add_income, if_neg (not_le.mpr hop), Money.Op.tx]
      | expense a c d n =>
        simp only [Money.Op.amountOf] at hop
        simp [Money.applyOp, Money.add_expense, if_neg (not_le.mpr hop), Money.Op.tx]
    have : Money.applyOps s (op :: ops) = Money.applyOps (Money.applyOp s op) ops := by
      simp [Money.applyOps]
    rw [this, ih.1, ih.2, hstep.1, hstep.2, List.append_assoc]
    simp

/-- The balance fold of `simple.py`, from an arbitrary start value, adds
each amount signed by whether the type is `IN`. -/
theorem simple_balance_foldl : ∀ (ts : List Simple.Transaction) (b : ℚ),
    ts.foldl
      (fun balance t =>
        if t.ttype = "IN" then balance + t.amount else balance - t.amount)
      b = b + (ts.map fun t => if t.ttype = "IN" then t.amount else -t.amount).sum
  | [], b => by simp
  | t :: ts, b => by
    simp only [List.foldl_cons, List.map_cons, List.sum_cons]
    rw [simple_balance_foldl ts]
    by_cases h : t.ttype = "IN" <;> simp [h] <;> ring

/-- When every transaction is of type `IN` or `OUT`, the signed sum of
`simple.py` is the income sum minus the expense sum. -/
theorem simple_contrib_sum : ∀ ts : List Simple.Transaction,
    (∀ t ∈ ts, t.ttype = "IN" ∨ t.ttype = "OUT") →
    (ts.map fun t => if t.ttype = "IN" then t.amount else -t.amount).sum
      = Simple.sumIN ts - Simple.sumOUT ts
  | [] => by simp [Simple.sumIN, Simple.sumOUT]
  | t :: ts => by
    intro h
    have ht := h t (List.mem_cons_self t ts)
    have hts := simple_contrib_sum ts fun u hu => h u (List.mem_cons_of_mem t hu)
    have hIN : Simple.sumIN (t :: ts)
        = (if t.ttype = "IN" then t.amount else 0) + Simple.sumIN ts := by
      by_cases hi : t.ttype = "IN" <;> simp [Simple.sumIN, List.filter_cons, hi]
    have hOUT : Simple.sumOUT (t :: ts)
        = (if t.ttype = "OUT" then t.amount else 0) + Simple.sumOUT ts := by
      by_cases ho : t.ttype = "OUT" <;> simp [Simple.sumOUT, List.filter_cons, ho]
    rw [List.map_cons, List.sum_cons, hIN, hOUT, hts]
    rcases ht with ht | ht <;> simp [ht] <;> ring

/-- Applying a sequence of valid append requests (`simple.py`) appends
exactly the corresponding transaction records, in order. -/
theorem simple_applyOps_spec : ∀ (ops : List Simple.Op) (s : Simple.AppState),
    (∀ op ∈ ops, 0 < op.amountOf) →
    (Simple.applyOps s ops).transactions = s.transactions ++ ops.map Simple.Op.tx
  | [], s => by simp [Simple.applyOps]
  | op :: ops, s => by
    intro h
    have hop := h op (List.mem_cons_self op ops)
    have ih := simple_applyOps_spec ops (Simple.applyOp s op)
      fun u hu => h u (List.mem_cons_of_mem op hu)
    have hstep : (Simple.applyOp s op).transactions
        = s.transactions ++ [Simple.Op.tx op] := by
      cases op with
      | income a n d =>
        simp only [Simple.Op.amountOf] at hop
        simp [Simple.applyOp, Simple.add_income, if_neg (not_le.mpr hop), Simple.Op.tx]
      | expense a n d =>
        simp only [Simple.Op.amountOf] at hop
        simp [Simple.applyOp, Simple.add_expense, if_neg (not_le.mpr hop), Simple.Op.tx]
    have hfold : Simple.applyOps s (op :: ops) = Simple.applyOps (Simple.applyOp s op) ops := by
      simp [Simple.applyOps]
    rw [hfold, ih, hstep, List.append_assoc]
    simp

/-- The accumulation loop of `monthly_summary` computes, on top of any
starting accumulator, the income total, the expense total and the
filtered transaction list of the selected month. -/
theorem money_month_foldl : ∀ (p : String) (ts : List Money.Transaction) (i e : ℚ)
    (c : List Money.Transaction),
    ts.foldl (Money.monthStep p) (i, e, c)
      = (i + Money.incomeOf p ts, e + Money.expenseOf p ts, c ++ Money.monthTxs p ts)
  | p, [], i, e, c => by
    simp [Money.incomeOf, Money.expenseOf, Money.monthTxs, Money.sumIN, Money.sumOUT]
  | p, t :: ts, i, e, c => by
    by_cases hp : strStartsWith t.date p = true
    · have htx : Money.monthTxs p (t :: ts) = t :: Money.monthTxs p ts := by
        simp [Money.monthTxs, List.filter_cons, hp]
      by_cases hi : t.ttype = "IN"
      · have h1 : Money.incomeOf p (t :: ts) = t.amount.getD 0 + Money.incomeOf p ts := by
          simp [Money.incomeOf, htx, Money.sumIN, List.filter_cons, hi]
        have h2 : Money.expenseOf p (t :: ts) = Money.expenseOf p ts := by
          simp [Money.expenseOf, htx, Money.sumOUT, List.filter_cons, hi]
        rw [List.foldl_cons,
          show Money.monthStep p (i, e, c) t = (i + t.amount.getD 0, e, c ++ [t]) from by
            simp [Money.monthStep, hp, hi],
          money_month_foldl p ts, h1, h2, htx]
        exact congrArg₂ Prod.mk (by ring) (congrArg₂ Prod.mk rfl (by simp))
      · by_cases ho : t.ttype = "OUT"
        · have h1 : Money.incomeOf p (t :: ts) = Money.incomeOf p ts := by
            simp [Money.incomeOf, htx, Money.sumIN, List.filter_cons, hi]
          have h2 : Money.expenseOf p (t :: ts)
              = t.amount.getD 0 + Money.expenseOf p ts := by
            simp [Money.expenseOf, htx, Money.sumOUT, List.filter_cons, ho]
          rw [List.foldl_cons,
            show Money.monthStep p (i, e, c) t = (i, e + t.amount.getD 0, c ++ [t]) from by
              simp [Money.monthStep, hp, hi, ho],
            money_month_foldl p ts, h1, h2, htx]
          exact congrArg₂ Prod.mk rfl (congrArg₂ Prod.mk (by ring) (by simp))
        · have h1 : Money.incomeOf p (t :: ts) = Money.incomeOf p ts := by
            simp [Money.incomeOf, htx, Money.sumIN, List.filter_cons, hi]
          have h2 : Money.expenseOf p (t :: ts) = Money.expenseOf p ts := by
            simp [Money.expenseOf, htx, Money.sumOUT, List.filter_cons, ho]
          rw [List.foldl_cons,
            show Money.monthStep p (i, e, c) t = (i, e, c ++ [t]) from by
              simp [Money.monthStep, hp, hi, ho],
            money_month_foldl p ts, h1, h2, htx]
          exact congrArg₂ Prod.mk rfl (congrArg₂ Prod.mk rfl (by simp))
    · have htx : Money.monthTxs p (t :: ts) = Money.monthTxs p ts := by
        simp [Money.monthTxs, List.filter_cons, hp]
      have h1 : Money.incomeOf p (t :: ts) = Money.incomeOf p ts := by
        simp [Money.incomeOf, htx]
      have h2 : Money.expenseOf p (t :: ts) = Money.expenseOf p ts := by
        simp [Money.expenseOf, htx]
      rw [List.foldl_cons,
        show Money.monthStep p (i, e, c) t = (i, e, c) from by
          simp [Money.monthStep, hp],
        money_month_foldl p ts, h1, h2, htx]

/-- A month string accepted by the validation is one of the 21 valid
month strings. -/
theorem money_validYM_month_mem (y m : String) (h : Money.validYM y m = true) :
    m ∈ Money.validMonths := by
  simp only [Money.validYM, Bool.and_eq_true] at h
  exact List.elem_iff.mp h.2

/-- For a valid month string, the prefix built by `monthly_summary`
equals the spec's zero-padded `YYYY-MM` prefix. -/
theorem money_prefix_eq (y m : String) (hm : m ∈ Money.validMonths) :
    (if m.length = 2 then y ++ "-" ++ m else y ++ "-0" ++ m) = Money.specPrefix y m := by
  simp only [Money.validMonths, List.mem_cons, List.not_mem_nil, or_false] at hm
  rcases hm with rfl | rfl | rfl | rfl | rfl | rfl | rfl | rfl | rfl | rfl | rfl |
    rfl | rfl | rfl | rfl | rfl | rfl | rfl | rfl | rfl | rfl <;>
    simp only [Money.specPrefix, String.append_assoc] <;>
    first
      | (rw [if_pos (by decide)]; exact congrArg (HAppend.hAppend y) (by decide))
      | (rw [if_neg (by decide)]; exact congrArg (HAppend.hAppend y) (by decide))

/-! ### Claims -/

/-- C2: for every ledger (any starting balance and any sequence of
transactions), Save followed by Load yields a ledger equal to the
original: same starting balance, same transactions in the same order. -/
theorem c2_save_load_roundtrip (d : Money.LedgerData) :
    Money.load_data (Money.save_data d) = Except.ok d := rfl

/-- C4 (code bug): Load does return the fresh empty ledger when the
store is absent or its content is unreadable or syntactically invalid
JSON, but when the store holds a valid JSON array (file text `[]`) the
uncaught `TypeError` from `data["starting_balance"] = 0.0` escapes to
the caller instead of the promised fresh ledger. -/
theorem c4_load_array_raises :
    Money.load_data .absent = Except.ok ⟨0, []⟩
    ∧ Money.load_data .unreadable = Except.ok ⟨0, []⟩
    ∧ Money.load_data .jsonArr = Except.error Money.PyError.typeError :=
  ⟨rfl, rfl, rfl⟩

/-- C10: the balance computation of the full-featured variant is a total
function of the ledger, equal to the starting balance plus every
transaction's signed contribution — a missing amount contributes 0 and a
type that is neither `IN` nor `OUT` contributes nothing. -/
theorem c10_balance_total_contrib (data : Money.LedgerData) :
    Money.calculate_balance data
      = data.starting_balance + (data.transactions.map Money.contrib).sum :=
  money_calc_balance_eq data

/-- C3: an append whose amount is ≤ 0 reports the invalid-amount error
and leaves the in-memory transactions, the starting balance and the
persisted store exactly as they were, in both CLI variants. -/
theorem c3_nonpositive_append_rejected
    (s : Money.AppState) (amount : ℚ) (source date note : String)
    (t : Simple.AppState) (amount2 : ℚ) (note2 date2 : String)
    (h : amount ≤ 0) (h2 : amount2 ≤ 0) :
    Money.add_income s amount source date note
        = (s, some Money.AppendError.invalidAmount)
    ∧ Simple.add_expense t amount2 note2 date2
        = (t, some Simple.AppendError.invalidAmount) := by
  constructor
  · unfold Money.add_income
    rw [if_pos h]
  · unfold Simple.add_expense
    rw [if_pos h2]

/-- Witness for C3: concrete rejected appends with amounts 0 and −5. -/
theorem c3_nonpositive_append_rejected_witness :
    ((0 : ℚ) ≤ 0 ∧ (-5 : ℚ) ≤ 0)
    ∧ Money.add_income ⟨⟨100, []⟩, .absent⟩ 0 "gift" "2024-01-05" ""
        = (⟨⟨100, []⟩, .absent⟩, some Money.AppendError.invalidAmount)
    ∧ Simple.add_expense ⟨[], none⟩ (-5) "snacks" "2024-01-10"
        = (⟨[], none⟩, some Simple.AppendError.invalidAmount) := by
  have h := c3_nonpositive_append_rejected ⟨⟨100, []⟩, .absent⟩ 0 "gift" "2024-01-05" ""
    ⟨[], none⟩ (-5) "snacks" "2024-01-10" (le_refl 0) (by norm_num)
  exact ⟨⟨le_refl 0, by norm_num⟩, h.1, h.2⟩

/-- C8: an uploaded table whose columns include all required columns
replaces the transaction set; a table missing a required column, or a
file the reader fails to parse (`none`), is rejected with an error and
the prior transaction set is retained unchanged. -/
theorem c8_upload_column_validation (prior df : PP.DataFrame) :
    (PP.required_cols ⊆ df.columns →
      PP.handle_upload prior (some df) = (df, PP.UploadOutcome.success))
    ∧ (¬ PP.required_cols ⊆ df.columns →
      PP.handle_upload prior (some df) = (prior, PP.UploadOutcome.missingColumns))
    ∧ PP.handle_upload prior none = (prior, PP.UploadOutcome.readError) := by
  have key : (PP.required_cols.all fun c => df.columns.contains c) = true
      ↔ PP.required_cols ⊆ df.columns := by
    rw [List.all_eq_true]
    constructor
    · intro hall a ha
      exact List.elem_iff.mp (hall a ha)
    · intro hsub a ha
      exact List.elem_iff.mpr (hsub ha)
  refine ⟨fun hsub => ?_, fun hnsub => ?_, rfl⟩
  · show (if (PP.required_cols.all fun c => df.columns.contains c) = true
        then ((df, PP.UploadOutcome.success) : PP.DataFrame × PP.UploadOutcome)
        else (prior, PP.UploadOutcome.missingColumns)) = (df, PP.UploadOutcome.success)
    rw [if_pos (key.mpr hsub)]
  · have hfalse : ¬ ((PP.required_cols.all fun c => df.columns.contains c) = true) :=
      fun hx => hnsub (key.mp hx)
    show (if (PP.required_cols.all fun c => df.columns.contains c) = true
        then ((df, PP.UploadOutcome.success) : PP.DataFrame × PP.UploadOutcome)
        else (prior, PP.UploadOutcome.missingColumns)) = (prior, PP.UploadOutcome.missingColumns)
    rw [if_neg hfalse]

/-- Witness for C8: a table with the five required columns (plus one
extra) is accepted and becomes the transaction set. -/
theorem c8_upload_column_validation_witness :
    PP.required_cols ⊆ ["Date", "Type", "Amount", "Category", "Note", "Extra"]
    ∧ PP.handle_upload ⟨PP.required_cols, [["2024-01-05", "IN", "50", "gift", ""]]⟩
        (some ⟨["Date", "Type", "Amount", "Category", "Note", "Extra"], []⟩)
        = (⟨["Date", "Type", "Amount", "Category", "Note", "Extra"], []⟩,
           PP.UploadOutcome.success) :=
  ⟨by decide,
   (c8_upload_column_validation ⟨PP.required_cols, [["2024-01-05", "IN", "50", "gift", ""]]⟩
     ⟨["Date", "Type", "Amount", "Category", "Note", "Extra"], []⟩).1 (by decide)⟩

/-- C6 counterexample: the claim "the list operation returns the
sequence sorted ascending by date" fails on the `pp.py` display, which
sorts descending: with two rows dated 2024-01-05 and 2024-02-01 the
displayed table is not ascending. -/
theorem c6_ascending_counterexample :
    ¬ List.Sorted PP.dateLe
      (PP.df_display
        [⟨"2024-01-05", "Income (+)", 50, "gift", ""⟩,
         ⟨"2024-02-01", "Income (+)", 10, "gift", ""⟩]) := by
  decide

/-- C6 (amended): `money.py` lists the transactions as a permutation of
the ledger sorted ascending by date string, while the `pp.py` table
displays a permutation of its rows sorted descending by date. -/
theorem c6_list_sort_order (data : Money.LedgerData) (l : List PP.Entry) :
    List.Sorted Money.dateLe (Money.list_transactions data)
    ∧ (Money.list_transactions data).Perm data.transactions
    ∧ List.Sorted PP.dateGe (PP.df_display l)
    ∧ (PP.df_display l).Perm l :=
  ⟨List.sorted_insertionSort Money.dateLe data.transactions,
   List.perm_insertionSort Money.dateLe data.transactions,
   List.sorted_insertionSort PP.dateGe l,
   List.perm_insertionSort PP.dateGe l⟩

/-- C1: from any starting balance, a ledger produced by a sequence of
valid appends (each amount > 0; each type `IN` or `OUT` by construction)
has computed balance equal to the starting balance plus the sum of `IN`
amounts minus the sum of `OUT` amounts; in the simple variant, which has
no starting balance, the balance is the `IN` sum minus the `OUT` sum. -/
theorem c1_balance_after_valid_appends
    (start : ℚ) (store : Money.StoreContent) (ops : List Money.Op)
    (hops : ∀ op ∈ ops, 0 < op.amountOf)
    (sstore : Option (List Simple.Transaction)) (sops : List Simple.Op)
    (hsops : ∀ op ∈ sops, 0 < op.amountOf) :
    Money.calculate_balance (Money.applyOps ⟨⟨start, []⟩, store⟩ ops).data
      = start + Money.sumIN (Money.applyOps ⟨⟨start, []⟩, store⟩ ops).data.transactions
        - Money.sumOUT (Money.applyOps ⟨⟨start, []⟩, store⟩ ops).data.transactions
    ∧ Simple.calc_balance (Simple.applyOps ⟨[], sstore⟩ sops).transactions
      = Simple.sumIN (Simple.applyOps ⟨[], sstore⟩ sops).transactions
        - Simple.sumOUT (Simple.applyOps ⟨[], sstore⟩ sops).transactions := by
  constructor
  · obtain ⟨htx, hsb⟩ := money_applyOps_spec ops ⟨⟨start, []⟩, store⟩ hops
    have hvalid : ∀ t ∈ (Money.applyOps ⟨⟨start, []⟩, store⟩ ops).data.transactions,
        t.ttype = "IN" ∨ t.ttype = "OUT" := by
      rw [htx]
      intro t ht
      simp only [List.nil_append, List.mem_map] at ht
      obtain ⟨op, _, rfl⟩ := ht
      cases op <;> simp [Money.Op.tx]
    rw [money_calc_balance_eq, money_contrib_sum _ hvalid, hsb]
    ring
  · have htx := simple_applyOps_spec sops ⟨[], sstore⟩ hsops
    have hvalid : ∀ t ∈ (Simple.applyOps ⟨[], sstore⟩ sops).transactions,
        t.ttype = "IN" ∨ t.ttype = "OUT" := by
      rw [htx]
      intro t ht
      simp only [List.nil_append, List.mem_map] at ht
      obtain ⟨op, _, rfl⟩ := ht
      cases op <;> simp [Simple.Op.tx]
    unfold Simple.calc_balance
    rw [simple_balance_foldl, simple_contrib_sum _ hvalid]
    ring

/-- Witness for C1: two concrete valid appends in each variant. -/
theorem c1_balance_after_valid_appends_witness :
    (∀ op ∈ ([.income 50 "gift" "2024-01-05" "", .expense 20 "snacks" "2024-01-10" ""] :
        List Money.Op), 0 < op.amountOf)
    ∧ (∀ op ∈ ([.income 30 "mom" "2024-01-06", .expense 5 "candy" "2024-01-07"] :
        List Simple.Op), 0 < op.amountOf)
    ∧ (Money.calculate_balance
        (Money.applyOps ⟨⟨100, []⟩, .absent⟩
          [.income 50 "gift" "2024-01-05" "", .expense 20 "snacks" "2024-01-10" ""]).data
      = 100 + Money.sumIN (Money.applyOps ⟨⟨100, []⟩, .absent⟩
          [.income 50 "gift" "2024-01-05" "",
           .expense 20 "snacks" "2024-01-10" ""]).data.transactions
        - Money.sumOUT (Money.applyOps ⟨⟨100, []⟩, .absent⟩
          [.income 50 "gift" "2024-01-05" "",
           .expense 20 "snacks" "2024-01-10" ""]).data.transactions
    ∧ Simple.calc_balance (Simple.applyOps ⟨[], none⟩
          [.income 30 "mom" "2024-01-06", .expense 5 "candy" "2024-01-07"]).transactions
      = Simple.sumIN (Simple.applyOps ⟨[], none⟩
          [.income 30 "mom" "2024-01-06", .expense 5 "candy" "2024-01-07"]).transactions
        - Simple.sumOUT (Simple.applyOps ⟨[], none⟩
          [.income 30 "mom" "2024-01-06", .expense 5 "candy" "2024-01-07"]).transactions) := by
  have h1 : ∀ op ∈ ([.income 50 "gift" "2024-01-05" "",
      .expense 20 "snacks" "2024-01-10" ""] : List Money.Op), 0 < op.amountOf := by
    intro op hop
    fin_cases hop <;> norm_num [Money.Op.amountOf]
  have h2 : ∀ op ∈ ([.income 30 "mom" "2024-01-06",
      .expense 5 "candy" "2024-01-07"] : List Simple.Op), 0 < op.amountOf := by
    intro op hop
    fin_cases hop <;> norm_num [Simple.Op.amountOf]
  exact ⟨h1, h2, c1_balance_after_valid_appends 100 .absent _ h1 none _ h2⟩

/-- C5: for valid (nonempty) year and month inputs, the monthly summary
leaves the ledger untouched and returns exactly the income total, the
expense total, the net and the count of the transactions whose date
starts with the zero-padded `YYYY-MM` prefix; transactions outside that
month contribute nothing. -/
theorem c5_monthly_summary_totals (todayY todayM : String) (data : Money.LedgerData)
    (y m : String) (hy : y ≠ "") (hm : m ≠ "") (h : Money.validYM y m = true) :
    Money.monthly_summary todayY todayM data y m
      = (data, some
          ⟨Money.incomeOf (Money.specPrefix y m) data.transactions,
           Money.expenseOf (Money.specPrefix y m) data.transactions,
           Money.incomeOf (Money.specPrefix y m) data.transactions
             - Money.expenseOf (Money.specPrefix y m) data.transactions,
           (Money.monthTxs (Money.specPrefix y m) data.transactions).length,
           Money.monthTxs (Money.specPrefix y m) data.transactions⟩) := by
  have hmem := money_validYM_month_mem y m h
  unfold Money.monthly_summary
  rw [if_neg hy, if_neg hm, if_pos h, money_prefix_eq y m hmem]
  simp [money_month_foldl]

/-- Witness for C5: a concrete ledger with one transaction inside
January 2024 and one outside, summarised with the one-digit month
input "1". -/
theorem c5_monthly_summary_totals_witness :
    (("2024" : String) ≠ "" ∧ ("1" : String) ≠ "" ∧ Money.validYM "2024" "1" = true)
    ∧ Money.monthly_summary "2025" "10"
        ⟨100, [⟨"2024-01-05", "IN", some 50, "gift", ""⟩,
               ⟨"2024-02-01", "IN", some 10, "gift", ""⟩]⟩ "2024" "1"
      = (⟨100, [⟨"2024-01-05", "IN", some 50, "gift", ""⟩,
                ⟨"2024-02-01", "IN", some 10, "gift", ""⟩]⟩,
         some
          ⟨Money.incomeOf (Money.specPrefix "2024" "1")
             [⟨"2024-01-05", "IN", some 50, "gift", ""⟩,
              ⟨"2024-02-01", "IN", some 10, "gift", ""⟩],
           Money.expenseOf (Money.specPrefix "2024" "1")
             [⟨"2024-01-05", "IN", some 50, "gift", ""⟩,
              ⟨"2024-02-01", "IN", some 10, "gift", ""⟩],
           Money.incomeOf (Money.specPrefix "2024" "1")
             [⟨"2024-01-05", "IN", some 50, "gift", ""⟩,
              ⟨"2024-02-01", "IN", some 10, "gift", ""⟩]
             - Money.expenseOf (Money.specPrefix "2024" "1")
                 [⟨"2024-01-05", "IN", some 50, "gift", ""⟩,
                  ⟨"2024-02-01", "IN", some 10, "gift", ""⟩],
           (Money.monthTxs (Money.specPrefix "2024" "1")
             [⟨"2024-01-05", "IN", some 50, "gift", ""⟩,
              ⟨"2024-02-01", "IN", some 10, "gift", ""⟩]).length,
           Money.monthTxs (Money.specPrefix "2024" "1")
             [⟨"2024-01-05", "IN", some 50, "gift", ""⟩,
              ⟨"2024-02-01", "IN", some 10, "gift", ""⟩]⟩) :=
  ⟨⟨by decide, by decide, by decide⟩,
   c5_monthly_summary_totals "2025" "10"
     ⟨100, [⟨"2024-01-05", "IN", some 50, "gift", ""⟩,
            ⟨"2024-02-01", "IN", some 10, "gift", ""⟩]⟩ "2024" "1"
     (by decide) (by decide) (by decide)⟩

/-- C7: a nonempty year/month input that fails the calendar validation
makes the monthly summary report an error and perform no computation,
and the ledger is returned unchanged. -/
theorem c7_invalid_month_rejected (todayY todayM : String) (data : Money.LedgerData)
    (y m : String) (hy : y ≠ "") (hm : m ≠ "") (h : Money.validYM y m = false) :
    Money.monthly_summary todayY todayM data y m = (data, none) := by
  unfold Money.monthly_summary
  rw [if_neg hy, if_neg hm, if_neg (by rw [h]; decide)]

/-- Witness for C7: month "13" is rejected and the ledger of one
transaction is returned unchanged with no summary. -/
theorem c7_invalid_month_rejected_witness :
    (("2024" : String) ≠ "" ∧ ("13" : String) ≠ ""
      ∧ Money.validYM "2024" "13" = false)
    ∧ Money.monthly_summary "2025" "10"
        ⟨100, [⟨"2024-01-05", "IN", some 50, "gift", ""⟩]⟩ "2024" "13"
      = (⟨100, [⟨"2024-01-05", "IN", some 50, "gift", ""⟩]⟩, none) :=
  ⟨⟨by decide, by decide, by decide⟩,
   c7_invalid_month_rejected "2025" "10"
     ⟨100, [⟨"2024-01-05", "IN", some 50, "gift", ""⟩]⟩ "2024" "13"
     (by decide) (by decide) (by decide)⟩

/-- C9: the spec's worked example — starting balance 100, append IN 50
"gift" dated 2024-01-05, OUT 20 "snacks" dated 2024-01-10 and IN 10
"gift" dated 2024-02-01: the computed balance is 140, and the monthly
summary for 2024-01 has income 50, expense 20, net 30 and count 2. -/
theorem c9_worked_example :
    Money.calculate_balance (Money.applyOps ⟨⟨100, []⟩, .absent⟩
        [.income 50 "gift" "2024-01-05" "", .expense 20 "snacks" "2024-01-10" "",
         .income 10 "gift" "2024-02-01" ""]).data = 140
    ∧ ((Money.monthly_summary "2025" "10" (Money.applyOps ⟨⟨100, []⟩, .absent⟩
        [.income 50 "gift" "2024-01-05" "", .expense 20 "snacks" "2024-01-10" "",
         .income 10 "gift" "2024-02-01" ""]).data "2024" "01").2).map
          (fun s => (s.income_total, s.expense_total, s.net, s.count))
      = some (50, 20, 30, 2) := by
  have hstate : (Money.applyOps ⟨⟨100, []⟩, .absent⟩
      [.income 50 "gift" "2024-01-05" "", .expense 20 "snacks" "2024-01-10" "",
       .income 10 "gift" "2024-02-01" ""]).data
      = ⟨100, [⟨"2024-01-05", "IN", some 50, "gift", ""⟩,
               ⟨"2024-01-10", "OUT", some 20, "snacks", ""⟩,
               ⟨"2024-02-01", "IN", some 10, "gift", ""⟩]⟩ := by
    norm_num [Money.applyOps, Money.applyOp, Money.add_income, Money.add_expense]
    decide
  refine ⟨?_, ?_⟩
  · rw [hstate, money_calc_balance_eq]
    simp [Money.contrib, (show ¬ (("OUT" : String) = "IN") by decide)]
    norm_num
  · rw [hstate]
    have hv : Money.validYM "2024" "01" = true := by decide
    have hpre := money_prefix_eq "2024" "01" (by decide)
    have s1 : strStartsWith "2024-01-05" (Money.specPrefix "2024" "01") = true := by decide
    have s2 : strStartsWith "2024-01-10" (Money.specPrefix "2024" "01") = true := by decide
    have s3 : strStartsWith "2024-02-01" (Money.specPrefix "2024" "01") = false := by decide
    unfold Money.monthly_summary
    rw [if_neg (by decide : ¬("2024" : String) = ""),
      if_neg (by decide : ¬("01" : String) = ""), if_pos hv, hpre]
    simp [Money.monthStep, s1, s2, s3,
      (show ¬ (("OUT" : String) = "IN") by decide)]
    norm_num
